import Mathlib

/-!
Verification of the tagged heap-object model of the slox repository.

The embedding follows `Notes/StrAndObj.c` (the `buf`, `Obj` and `Str`
structures and the functions `arr_len`, `Str_make`, `Str_print`, the
`IS_STR` macro) and `Sources/loxvm-object/include/loxvm-object.h` (the
`ObjectKind` enum and the `Object` / `ObjectString` layouts).  Byte
buffers are modelled as lists of natural numbers; pointers into memory
become the values stored behind them.  Operations that the spec defines
but that have no implementation under `src/` (the checked `downcast`,
the generic `is`, the string hash) are modelled from the spec and say so
in their doc comments.
-/

namespace LoxObj

/-- `buf` from StrAndObj.c: a length and a payload pointer.  The payload
is modelled as the list of bytes stored in the allocation it points to
(including any trailing NUL that allocation holds). -/
structure buf where
  len : Nat
  payload : List Nat
  deriving DecidableEq

/-- `Obj` from StrAndObj.c: the common header, a single integer tag.
Tag codes are the nonnegative `ObjectKind` codes, modelled as `Nat`. -/
structure Obj where
  kind : Nat
  deriving DecidableEq

/-- `Str` from StrAndObj.c: the `Obj` header followed by the chars buffer. -/
structure Str where
  obj : Obj
  chars : buf
  deriving DecidableEq

/-- The universe of heap-object variants sharing the `Obj` header; the
source defines exactly one variant, `Str`. -/
inductive HeapObject where
  | str (s : Str)
  deriving DecidableEq

/-- The `AS_OBJ` macro: view any heap object through its common `Obj`
header (the pointer cast `(Obj *)(o)`). -/
def AS_OBJ : HeapObject → Obj
  | .str s => s.obj

/-- The typed view of a heap object as the `Str` variant (the pointer
cast `(Str *)o`); with one variant this is total. -/
def asStr : HeapObject → Str
  | .str s => s

/-- Reading the tag of a heap object: the `kind` field of its header. -/
def tag_of (o : HeapObject) : Nat := (AS_OBJ o).kind

/-- The `IS_STR` macro from StrAndObj.c: `((Obj *)(o))->kind == 1`. -/
def IS_STR (o : HeapObject) : Bool := (AS_OBJ o).kind == 1

/-- Modelled from the spec: the generic `is(object, Tag)` of spec 4.1 is
not under `src/`; the source's `IS_STR` macro is its `Tag = String`
instance.  It reads the header tag and compares it with the requested
code. -/
def is (o : HeapObject) (t : Nat) : Bool := (AS_OBJ o).kind == t

/-- The `TypeMismatch` error of spec 7. -/
inductive ObjError where
  | TypeMismatch
  deriving DecidableEq

/-- Modelled from the spec: the checked `downcast(object, Tag)` of spec
4.1 is not under `src/`; `Str_print`'s tag guard is the source's
caller-side analog.  On a tag match it returns the typed view of the
same underlying storage; on a mismatch it fails with `TypeMismatch`. -/
def downcast (o : HeapObject) (t : Nat) : Except ObjError Str :=
  if tag_of o = t then Except.ok (asStr o)
  else Except.error ObjError.TypeMismatch

/-- `arr_len` from StrAndObj.c: counts bytes until the first 0x00.  On a
buffer that holds no NUL the C loop runs past the end of the allocation;
that is modelled as `none`. -/
def arr_len : List Nat → Option Nat
  | [] => none
  | a :: rest => if a = 0 then some 0 else (arr_len rest).map (· + 1)

/-- `Str_make` from StrAndObj.c: allocate a `Str` and set it to
`(Str){ 1, buffer }`. -/
def Str_make (buffer : buf) : Str := { obj := { kind := 1 }, chars := buffer }

/-- `printf("%s", p)`: writes the bytes of `p` up to but excluding the
first NUL byte. -/
def printf_s (p : List Nat) : List Nat := p.takeWhile (fun a => a != 0)

/-- `Str_print` from StrAndObj.c: if `IS_STR` fails, silently return
(no output); otherwise `printf("%s", s->chars.payload)`.  The value is
the byte sequence written to stdout. -/
def Str_print (s : Str) : List Nat :=
  if IS_STR (.str s) then printf_s s.chars.payload else []

/-- Construction of a `Str` from raw content bytes, following `main` in
StrAndObj.c and spec 4.2: the payload is an owned copy of the bytes in a
`calloc`'d buffer of `len + 1` bytes (so a trailing NUL follows the
content), and `len` counts only the content bytes. -/
def make_string (b : List Nat) : Str :=
  Str_make { len := b.length, payload := b ++ [0] }

/-- The chars view of a `Str` (spec 4.2 `chars`): a read-only view of
exactly `len` bytes at the start of the payload buffer. -/
def Str_chars (s : Str) : List Nat := s.chars.payload.take s.chars.len

/-- `ObjectKind` from loxvm-object.h: a closed `uint8_t` enum whose only
variant is `ObjectKindString = 1`. -/
inductive ObjectKind where
  | string
  deriving DecidableEq

/-- The numeric code of a tag: `ObjectKindString = 1`; code 0 is left
unused as a sentinel. -/
def ObjectKind.code : ObjectKind → Nat
  | .string => 1

/-- `Object` from loxvm-object.h: the kind tag and the collector's
intrusive `next` link (nullable), modelled as an optional object id. -/
structure Object where
  kind : Nat
  next : Option Nat
  deriving DecidableEq

/-- `ObjectString` from loxvm-object.h: the `Object` header, `length`
(strlen of `chars`, not counting the NUL), the 32-bit content `hash`,
and the NUL-terminated `chars` flexible array member, modelled as the
list of allocated bytes. -/
structure ObjectString where
  header : Object
  length : Nat
  hash : Nat
  chars : List Nat
  deriving DecidableEq

/-- Modelled from the spec: one step of the FNV-1a 32-bit hash.  Spec 3
fixes only that the hash is a 32-bit pure function of the payload bytes
computed eagerly at construction and names FNV-1a as acceptable; no hash
code is under `src/`. -/
def fnv1a_step (h b : Nat) : Nat := ((h ^^^ (b % 256)) * 16777619) % 4294967296

/-- Modelled from the spec: the fixed hash function `H` over the payload
bytes (FNV-1a, 32-bit). -/
def fnv1a (bytes : List Nat) : Nat := bytes.foldl fnv1a_step 2166136261

/-- Modelled from the spec: the `ObjectString` allocator (spec 4.2
`make_string`) is not under `src/` — loxvm-object.h only declares the
layout.  It sets `length = bytes.count`, computes `hash = H(bytes)`
eagerly, stores an owned NUL-terminated copy of the bytes, and sets
`header.tag = String`. -/
def ObjectString.make (bytes : List Nat) : ObjectString :=
  { header := { kind := ObjectKind.code ObjectKind.string, next := none }
    length := bytes.length
    hash := fnv1a bytes
    chars := bytes ++ [0] }

/-- `StringRef_chars` from loxvm-object.h (declared there, defined
elsewhere in the repository): the view of the string contents starting
at the `chars` field — per spec 4.2 a read-only view of exactly
`length` bytes. -/
def StringRef_chars (s : ObjectString) : List Nat := s.chars.take s.length

/-- Observations produced by the exposed read-only operations. -/
inductive Obs where
  | tag (t : Nat)
  | bool (b : Bool)
  | cast (r : Except ObjError Str)
  | bytes (bs : List Nat)

/-- The operations this core exposes on a constructed `Str`. -/
inductive Op where
  | tagOf
  | isTag (t : Nat)
  | castTo (t : Nat)
  | charsView
  | print

/-- Run one exposed operation on a `Str`: the observation it returns,
paired with the object as the operation leaves it.  None of the source
operations stores through the object pointer, so each leaves the object
unchanged. -/
def runOp (s : Str) : Op → Obs × Str
  | .tagOf => (.tag (tag_of (.str s)), s)
  | .isTag t => (.bool (is (.str s) t), s)
  | .castTo t => (.cast (downcast (.str s) t), s)
  | .charsView => (.bytes (Str_chars s), s)
  | .print => (.bytes (Str_print s), s)

/-- Run a sequence of exposed operations, returning the final object. -/
def runOps (s : Str) : List Op → Str
  | [] => s
  | op :: rest => runOps (runOp s op).2 rest

/-- The operations available on an `ObjectString` in this core. -/
inductive OpO where
  | tagOfO
  | charsO

/-- Run one operation on an `ObjectString`; both only read. -/
def runOpO (s : ObjectString) : OpO → Obs × ObjectString
  | .tagOfO => (.tag s.header.kind, s)
  | .charsO => (.bytes (StringRef_chars s), s)

/-- Run a sequence of `ObjectString` operations. -/
def runOpsO (s : ObjectString) : List OpO → ObjectString
  | [] => s
  | op :: rest => runOpsO (runOpO s op).2 rest

/-! ## Helper lemmas -/

theorem runOp_snd (s : Str) (op : Op) : (runOp s op).2 = s := by
  cases op <;> rfl

theorem runOps_id (ops : List Op) (s : Str) : runOps s ops = s := by
  induction ops generalizing s with
  | nil => rfl
  | cons op rest ih => simp [runOps, runOp_snd, ih]

theorem runOpO_snd (s : ObjectString) (op : OpO) : (runOpO s op).2 = s := by
  cases op <;> rfl

theorem runOpsO_id (ops : List OpO) (s : ObjectString) : runOpsO s ops = s := by
  induction ops generalizing s with
  | nil => rfl
  | cons op rest ih => simp [runOpsO, runOpO_snd, ih]

theorem fnv1a_foldl_lt (l : List Nat) (init : Nat) (h : init < 4294967296) :
    l.foldl fnv1a_step init < 4294967296 := by
  induction l generalizing init with
  | nil => exact h
  | cons a rest ih =>
    exact ih _ (Nat.mod_lt _ (by norm_num))

theorem fnv1a_lt (bytes : List Nat) : fnv1a bytes < 4294967296 :=
  fnv1a_foldl_lt bytes 2166136261 (by norm_num)

theorem takeWhile_ne_zero_append_nul (b : List Nat) :
    (b ++ [0]).takeWhile (fun a => a != 0) = b.takeWhile (fun a => a != 0) := by
  induction b with
  | nil => simp [List.takeWhile]
  | cons a rest ih =>
    by_cases ha : a = 0
    · subst ha; simp [List.takeWhile]
    · have hb : (a != 0) = true := by simpa using ha
      simp [List.takeWhile, hb, List.append_eq] at ih ⊢
      exact ih

theorem takeWhile_ne_zero_eq_self_iff (l : List Nat) :
    l.takeWhile (fun a => a != 0) = l ↔ ¬ 0 ∈ l := by
  rw [List.takeWhile_eq_self_iff]
  constructor
  · intro h hm
    have := h 0 hm
    simp at this
  · intro h x hx
    have hne : x ≠ 0 := fun he => h (he ▸ hx)
    simpa using hne

/-! ## Claim theorems -/

/-- Claim C1: for every heap object `o` and tag `t` with `t ≠ tag_of o`,
`downcast o t` fails with a `TypeMismatch` error surfaced to the caller
(an `Except.error` result), and the mismatch path reads no
variant-specific field: any object carrying the same header tag produces
the same result. -/
theorem downcast_mismatch_typeMismatch (o o' : HeapObject) (t : Nat)
    (h : t ≠ tag_of o) (h' : tag_of o' = tag_of o) :
    downcast o t = Except.error ObjError.TypeMismatch ∧
    downcast o' t = downcast o t := by
  have hne : ¬ tag_of o = t := fun he => h he.symm
  have hne' : ¬ tag_of o' = t := by rw [h']; exact hne
  constructor
  · simp [downcast, hne]
  · simp [downcast, hne, hne']

/-- Witness for C1: two strings with equal header tags but different
payloads, downcast to the unused tag 0. -/
theorem downcast_mismatch_typeMismatch_witness :
    downcast (.str (make_string [72])) 0 = Except.error ObjError.TypeMismatch ∧
    downcast (.str (make_string [9, 9])) 0 = downcast (.str (make_string [72])) 0 :=
  downcast_mismatch_typeMismatch (.str (make_string [72]))
    (.str (make_string [9, 9])) 0 (by decide) (by decide)

/-- Claim C2: for every byte sequence `b`, the object returned by
`make_string b` stores a length equal to the byte count of `b`, and the
chars view of that object returns exactly the bytes of `b`. -/
theorem make_string_roundtrip (b : List Nat) :
    (make_string b).chars.len = b.length ∧ Str_chars (make_string b) = b := by
  refine ⟨rfl, ?_⟩
  simp [Str_chars, make_string, Str_make, List.take_left]

/-- Claim C3: bytewise-equal payloads hash equal; the hash is the fixed
32-bit FNV-1a hash of the payload bytes, stored eagerly in the `hash`
field at construction. -/
theorem make_string_hash_deterministic (b₁ b₂ : List Nat) (h : b₁ = b₂) :
    (ObjectString.make b₁).hash = (ObjectString.make b₂).hash ∧
    (ObjectString.make b₁).hash = fnv1a b₁ ∧
    (ObjectString.make b₁).hash < 4294967296 := by
  subst h
  exact ⟨rfl, rfl, fnv1a_lt b₁⟩

/-- Witness for C3 at a concrete payload. -/
theorem make_string_hash_deterministic_witness :
    (ObjectString.make [104, 105]).hash = (ObjectString.make [104, 105]).hash ∧
    (ObjectString.make [104, 105]).hash = fnv1a [104, 105] ∧
    (ObjectString.make [104, 105]).hash < 4294967296 :=
  make_string_hash_deterministic [104, 105] [104, 105] rfl

/-- Claim C4: downcasting any heap object to its own tag succeeds and
returns the typed view of the same underlying storage (no copy); for an
object built by `Str_make` the view's fields are exactly those set at
construction (tag 1 and the supplied buffer). -/
theorem downcast_matching_tag_ok (o : HeapObject) (buffer : buf) :
    downcast o (tag_of o) = Except.ok (asStr o) ∧
    downcast (.str (Str_make buffer)) (tag_of (.str (Str_make buffer))) =
      Except.ok { obj := { kind := 1 }, chars := buffer } := by
  constructor
  · simp [downcast]
  · rfl

/-- Claim C5: after construction no exposed operation (tag_of, is,
downcast, chars view, printing) mutates the object: any sequence of the
exposed operations leaves the tag, length and payload of a constructed
`Str` — and the whole record and hash of a constructed `ObjectString` —
equal to the values set at construction. -/
theorem string_fields_immutable (b : List Nat) (ops : List Op) (opsO : List OpO) :
    runOps (make_string b) ops = make_string b ∧
    (runOps (make_string b) ops).obj.kind = 1 ∧
    (runOps (make_string b) ops).chars.len = b.length ∧
    (runOps (make_string b) ops).chars.payload = b ++ [0] ∧
    runOpsO (ObjectString.make b) opsO = ObjectString.make b ∧
    (runOpsO (ObjectString.make b) opsO).hash = fnv1a b := by
  refine ⟨runOps_id ops _, ?_, ?_, ?_, runOpsO_id opsO _, ?_⟩ <;>
    simp [runOps_id, runOpsO_id, make_string, Str_make, ObjectString.make]

/-- Claim C6: the tag set is the closed enumeration whose single variant
String has code 1, code 0 stays unused by every variant, and
`make_string` always sets the constructed header's tag to String. -/
theorem tag_string_code_one :
    ObjectKind.code ObjectKind.string = 1 ∧
    (∀ k : ObjectKind, 0 < ObjectKind.code k) ∧
    (∀ k : ObjectKind, k = ObjectKind.string) ∧
    (∀ b : List Nat,
      tag_of (.str (make_string b)) = ObjectKind.code ObjectKind.string) := by
  refine ⟨rfl, ?_, ?_, fun b => rfl⟩
  · intro k; cases k; decide
  · intro k; cases k; rfl

/-- Claim C7: `is o t` is a total boolean operation returning true
exactly when `tag_of o = t`; the source's `IS_STR` macro is its instance
at the String tag. -/
theorem is_iff_tag_eq (o : HeapObject) (t : Nat) :
    (is o t = true ↔ tag_of o = t) ∧ IS_STR o = is o 1 := by
  refine ⟨?_, rfl⟩
  simp [is, tag_of]

/-- Claim C8: `make_string` accepts a byte sequence of any length and
always succeeds (it is total); the empty construction yields length 0,
an empty chars view, and the String tag. -/
theorem make_string_empty_ok :
    (make_string []).chars.len = 0 ∧
    Str_chars (make_string []) = [] ∧
    (make_string []).obj.kind = 1 := by
  decide

/-- Claim C9: on a buffer that contains a 0x00 byte, `arr_len` returns
the number of bytes preceding the first 0x00; on a buffer with no 0x00
the scan finds no NUL inside the allocation (no result — the C loop does
not terminate within the array). -/
theorem arr_len_spec (arr : List Nat) :
    (0 ∈ arr → arr_len arr = some ((arr.takeWhile (fun a => a != 0)).length)) ∧
    (¬ 0 ∈ arr → arr_len arr = none) := by
  induction arr with
  | nil =>
    refine ⟨fun h => absurd h (by simp), fun _ => rfl⟩
  | cons a rest ih =>
    by_cases ha : a = 0
    · subst ha
      refine ⟨fun _ => ?_, fun h => absurd (by simp) h⟩
      simp [arr_len, List.takeWhile]
    · have hb : (a != 0) = true := by simpa using ha
      constructor
      · intro h
        have h0 : 0 ∈ rest := by
          rcases List.mem_cons.mp h with h1 | h1
          · exact absurd h1.symm ha
          · exact h1
        simp [arr_len, ha, List.takeWhile, hb, ih.1 h0, Nat.add_comm]
      · intro h
        have h0 : ¬ 0 ∈ rest := fun hm => h (List.mem_cons.mpr (Or.inr hm))
        simp [arr_len, ha, ih.2 h0]

/-- Witness for C9: a buffer with a NUL after one byte, and a buffer
with no NUL at all. -/
theorem arr_len_spec_witness :
    arr_len [72, 0] = some ((List.takeWhile (fun a => a != 0) [72, 0]).length) ∧
    arr_len [5] = none :=
  ⟨(arr_len_spec [72, 0]).1 (by decide), (arr_len_spec [5]).2 (by decide)⟩

/-- Claim C10: for a String-tagged object, `Str_print` writes the payload
bytes up to but excluding the first 0x00; the output is independent of
the stored `len` field; and for a constructed string the output equals
the full stored content exactly when the content has no interior 0x00. -/
theorem Str_print_nul_semantics (s : Str) (n : Nat) (b : List Nat)
    (h : s.obj.kind = 1) :
    Str_print s = s.chars.payload.takeWhile (fun a => a != 0) ∧
    Str_print { s with chars := { s.chars with len := n } } = Str_print s ∧
    (Str_print (make_string b) = b ↔ ¬ 0 ∈ b) := by
  refine ⟨?_, ?_, ?_⟩
  · simp [Str_print, IS_STR, AS_OBJ, h, printf_s]
  · simp [Str_print, IS_STR, AS_OBJ, h, printf_s]
  · have hmk : Str_print (make_string b) = b.takeWhile (fun a => a != 0) := by
      simp [Str_print, IS_STR, AS_OBJ, make_string, Str_make, printf_s,
        takeWhile_ne_zero_append_nul]
    rw [hmk]
    exact takeWhile_ne_zero_eq_self_iff b

/-- Witness for C10: a constructed string whose content holds an interior
NUL, with the `len` field overwritten to an unrelated value. -/
theorem Str_print_nul_semantics_witness :
    Str_print (make_string [72, 0, 73]) =
      (make_string [72, 0, 73]).chars.payload.takeWhile (fun a => a != 0) ∧
    Str_print { make_string [72, 0, 73] with
        chars := { (make_string [72, 0, 73]).chars with len := 5 } } =
      Str_print (make_string [72, 0, 73]) ∧
    (Str_print (make_string [72, 0, 73]) = [72, 0, 73] ↔ ¬ 0 ∈ [72, 0, 73]) :=
  Str_print_nul_semantics (make_string [72, 0, 73]) 5 [72, 0, 73] (by decide)

end LoxObj
